import Mathlib

/-
Shallow embedding of the Cluster controller
(src/controllers/cluster_controller.go) of srm09/cluster-api.

The controller-runtime client is modelled as an environment record whose
fields hold the answers the object store gives during one reconcile pass
(list-query results, external Get results, success/failure of delete and
patch calls).  Helpers the controller calls from packages outside src/
(util, conditions, annotations, feature gates) are modelled from the spec
and carry a doc comment saying so; everything else is translated from the
source line by line.
-/

namespace CAPI

/-- Status values a condition can take (True / False / Unknown). -/
inductive ConditionStatus where
  | isTrue
  | isFalse
  | isUnknown
deriving DecidableEq

/-- A status condition: type, status, severity, reason, message. -/
structure Condition where
  ctype : String
  status : ConditionStatus
  severity : String := ""
  reason : String := ""
  message : String := ""
deriving DecidableEq

/-- An owner reference carried by an object, reduced to the fields the
controller consults (kind and name of the owner). -/
structure OwnerRef where
  kind : String
  name : String
deriving DecidableEq

/-- Object metadata shared by every resource kind in the model. -/
structure ObjectMeta where
  name : String := ""
  nspace : String := ""
  labels : List (String × String) := []
  ownerRefs : List OwnerRef := []
  deletionTimestamp : Nat := 0
  finalizers : List String := []
deriving DecidableEq

/-- A (apiVersion, kind, name) reference to a provider-managed object
(corev1.ObjectReference as used for ControlPlaneRef / InfrastructureRef). -/
structure ObjectReference where
  apiVersion : String := ""
  kind : String := ""
  name : String := ""
deriving DecidableEq

/-- Cluster spec fields the controller reads. -/
structure ClusterSpec where
  controlPlaneRef : Option ObjectReference := none
  infrastructureRef : Option ObjectReference := none
  paused : Bool := false
deriving DecidableEq

/-- Cluster status fields the controller reads or writes. -/
structure ClusterStatus where
  controlPlaneInitialized : Bool := false
  conditions : List Condition := []
  phase : String := ""
deriving DecidableEq

/-- The Cluster object. -/
structure Cluster where
  meta : ObjectMeta
  spec : ClusterSpec := {}
  status : ClusterStatus := {}
deriving DecidableEq

/-- A Machine: metadata plus the status node reference and the spec cluster
name the controller consults. -/
structure Machine where
  meta : ObjectMeta
  nodeRef : Option String := none
  clusterName : String := ""
deriving DecidableEq

/-- A MachineDeployment (only metadata is consulted). -/
structure MachineDeployment where
  meta : ObjectMeta
deriving DecidableEq

/-- A MachineSet (only metadata is consulted). -/
structure MachineSet where
  meta : ObjectMeta
deriving DecidableEq

/-- A MachinePool (only metadata is consulted). -/
structure MachinePool where
  meta : ObjectMeta
deriving DecidableEq

/-- clusterv1.ClusterFinalizer. -/
def clusterFinalizer : String := "cluster.cluster.x-k8s.io"

/-- clusterv1.MachineControlPlaneLabelName. -/
def machineControlPlaneLabelName : String := "cluster.x-k8s.io/control-plane"

/-- Modelled from the spec: util.IsControlPlaneMachine is not under src/; a
control-plane Machine is one carrying the control-plane label. -/
def isControlPlaneMachine (m : Machine) : Bool :=
  m.meta.labels.any fun kv => kv.fst = machineControlPlaneLabelName

/-- Modelled from the spec: util.IsOwnedByObject is not under src/; an owned
descendant is one carrying an owner reference pointing at the Cluster. -/
def isOwnedByObject (meta : ObjectMeta) (cluster : Cluster) : Bool :=
  meta.ownerRefs.any fun ref =>
    ref.kind = "Cluster" && ref.name = cluster.meta.name

/-- splitMachineList separates the machines running the control plane from
other worker nodes, preserving the iteration order of the input list
(cluster_controller.go lines 461-473).  Returns (controlplanes, nodes). -/
def splitMachineList : List Machine → List Machine × List Machine
  | [] => ([], [])
  | m :: rest =>
    let r := splitMachineList rest
    if isControlPlaneMachine m then (m :: r.1, r.2) else (r.1, m :: r.2)

/-- A descendant object as it appears in the owned-children list handed to
the delete loop; the constructor records which typed collection of the
clusterDescendants struct the object came from. -/
inductive Descendant where
  | machinePool (mp : MachinePool)
  | machineDeployment (md : MachineDeployment)
  | machineSet (ms : MachineSet)
  | workerMachine (m : Machine)
  | controlPlaneMachine (m : Machine)
deriving DecidableEq

/-- Metadata of a descendant (meta.Accessor in the source). -/
def Descendant.dmeta : Descendant → ObjectMeta
  | .machinePool mp => mp.meta
  | .machineDeployment md => md.meta
  | .machineSet ms => ms.meta
  | .workerMachine m => m.meta
  | .controlPlaneMachine m => m.meta

/-- clusterDescendants (cluster_controller.go lines 327-333): the typed
collections produced by listDescendants. -/
structure clusterDescendants where
  machineDeployments : List MachineDeployment := []
  machineSets : List MachineSet := []
  controlPlaneMachines : List Machine := []
  workerMachines : List Machine := []
  machinePools : List MachinePool := []
deriving DecidableEq

/-- clusterDescendants.length (cluster_controller.go lines 336-341).
Translated exactly from the source: the sum does NOT include the
machinePools collection. -/
def clusterDescendants.length (c : clusterDescendants) : Nat :=
  c.machineDeployments.length +
    c.machineSets.length +
    c.controlPlaneMachines.length +
    c.workerMachines.length

/-- The concatenated list the source iterates in filterOwnedDescendants
(lines 441-449): machinePools (prepended when the MachinePool feature is
enabled), then machineDeployments, machineSets, workerMachines and
controlPlaneMachines. -/
def descendantLists (machinePoolEnabled : Bool) (c : clusterDescendants) :
    List Descendant :=
  let base :=
    c.machineDeployments.map Descendant.machineDeployment ++
      c.machineSets.map Descendant.machineSet ++
      c.workerMachines.map Descendant.workerMachine ++
      c.controlPlaneMachines.map Descendant.controlPlaneMachine
  if machinePoolEnabled then c.machinePools.map Descendant.machinePool ++ base
  else base

/-- filterOwnedDescendants (cluster_controller.go lines 426-458): keep, in
list order, only the descendants carrying an owner reference to the
cluster. -/
def filterOwnedDescendants (machinePoolEnabled : Bool)
    (c : clusterDescendants) (cluster : Cluster) : List Descendant :=
  (descendantLists machinePoolEnabled c).filter fun d =>
    isOwnedByObject d.dmeta cluster

/-- The weakly-typed provider object returned by
ExternalReferenceResolver.Get, reduced to the fields this controller
consults: identity and the conditions it reports. -/
structure ProviderObject where
  kind : String := ""
  name : String := ""
  conditions : List Condition := []
deriving DecidableEq

/-- Result of resolving an external reference: NotFound, some other
failure, or the provider object. -/
inductive GetResult where
  | notFound
  | failure (msg : String)
  | found (obj : ProviderObject)
deriving DecidableEq

/-- Modelled from the spec: conditions.Set (util/conditions, not under
src/) records a condition on the cluster, replacing any existing condition
of the same type. -/
def setCondition (cluster : Cluster) (cond : Condition) : Cluster :=
  { cluster with
    status :=
      { cluster.status with
        conditions :=
          cluster.status.conditions.filter (fun c => c.ctype ≠ cond.ctype)
            ++ [cond] } }

/-- Modelled from the spec: conditions.MarkFalse (util/conditions, not
under src/) sets a False condition with the given reason and Info
severity, as called at cluster_controller.go lines 266 and 297. -/
def markFalse (cluster : Cluster) (ctype reason : String) : Cluster :=
  setCondition cluster
    { ctype := ctype, status := .isFalse, severity := "Info",
      reason := reason, message := "" }

/-- Modelled from the spec: the condition conditions.SetMirror with
WithFallbackValue(false, Deleting, Info) produces — the Ready condition of
the source object copied verbatim under the target type when present, else
a False/Deleting/Info fallback (spec section 4.4). -/
def mirrorCondition (obj : ProviderObject) (ctype : String) : Condition :=
  match obj.conditions.find? (fun c => c.ctype = "Ready") with
  | some rc =>
    { ctype := ctype, status := rc.status, severity := rc.severity,
      reason := rc.reason, message := rc.message }
  | none =>
    { ctype := ctype, status := .isFalse, severity := "Info",
      reason := "Deleting", message := "" }

/-- Modelled from the spec: conditions.SetMirror (util/conditions, not
under src/) records the mirrored condition on the cluster. -/
def setMirror (cluster : Cluster) (ctype : String) (obj : ProviderObject) :
    Cluster :=
  setCondition cluster (mirrorCondition obj ctype)

/-- Look up a condition by type on the cluster. -/
def getCondition (cluster : Cluster) (ctype : String) : Option Condition :=
  cluster.status.conditions.find? (fun c => c.ctype = ctype)

/-- Answers the object store gives to the queries one deletion pass issues.
List fields hold the results of the label-selector List calls of
listDescendants; listErr is the error of a failed List call; providerGet
answers ExternalReferenceResolver.Get; deleteChild and deleteProvider give
the error (if any) of each Delete call. -/
structure DeleteEnv where
  machinePoolEnabled : Bool := false
  machineDeployments : List MachineDeployment := []
  machineSets : List MachineSet := []
  machinePools : List MachinePool := []
  machines : List Machine := []
  listErr : Option String := none
  providerGet : ObjectReference → GetResult
  deleteChild : Descendant → Option String := fun _ => none
  deleteProvider : ProviderObject → Option String := fun _ => none

/-- listDescendants (cluster_controller.go lines 386-422) on a pass whose
List calls succeed: machinePools are listed only when the feature gate is
enabled, machines are split into control-plane and worker machines, and
control-plane machines are kept only when the Cluster has no
ControlPlaneRef. -/
def listDescendants (env : DeleteEnv) (cluster : Cluster) :
    clusterDescendants :=
  { machineDeployments := env.machineDeployments
    machineSets := env.machineSets
    machinePools := if env.machinePoolEnabled then env.machinePools else []
    workerMachines := (splitMachineList env.machines).2
    controlPlaneMachines :=
      if cluster.spec.controlPlaneRef = none then
        (splitMachineList env.machines).1
      else [] }

/-- ctrl.Result: requeue flag and requeue-after delay (in seconds). -/
structure CtrlResult where
  requeue : Bool := false
  requeueAfter : Nat := 0
deriving DecidableEq

/-- deleteRequeueAfter (cluster_controller.go line 55): 5 seconds. -/
def deleteRequeueAfter : Nat := 5

/-- A delete call issued to the object store during a deletion pass:
either an owned child or an external provider object. -/
inductive DeleteCall where
  | child (d : Descendant)
  | provider (obj : ProviderObject)
deriving DecidableEq

/-- Everything one call to reconcileDelete produces: the (possibly
mutated) in-memory cluster, the returned result and error, and the
ordered sequence of delete calls it issued. -/
structure DeleteOutcome where
  cluster : Cluster
  res : CtrlResult
  err : Option String
  deletes : List DeleteCall
deriving DecidableEq

/-- kerrors.NewAggregate on a non-empty error list, reduced to joining the
messages. -/
def joinErrs (errs : List String) : String := String.intercalate "; " errs

/-- controllerutil.RemoveFinalizer: drop every copy of the finalizer. -/
def removeFinalizer (cluster : Cluster) (finalizer : String) : Cluster :=
  { cluster with
    meta :=
      { cluster.meta with
        finalizers := cluster.meta.finalizers.filter (fun f => f ≠ finalizer) } }

/-- controllerutil.ContainsFinalizer. -/
def containsFinalizer (cluster : Cluster) (finalizer : String) : Bool :=
  cluster.meta.finalizers.contains finalizer

/-- controllerutil.AddFinalizer: append the finalizer if absent. -/
def addFinalizer (cluster : Cluster) (finalizer : String) : Cluster :=
  if containsFinalizer cluster finalizer then cluster
  else
    { cluster with
      meta :=
        { cluster.meta with
          finalizers := cluster.meta.finalizers ++ [finalizer] } }

/-- Final step of reconcileDelete (cluster_controller.go lines 323-324):
remove the Cluster finalizer and return an empty result. -/
def finalizeDeletion (cluster : Cluster) (calls : List DeleteCall) :
    DeleteOutcome :=
  { cluster := removeFinalizer cluster clusterFinalizer,
    res := {}, err := none, deletes := calls }

/-- InfrastructureRef step of reconcileDelete (cluster_controller.go lines
292-321): three-way branch on resolving the reference — NotFound marks
the InfrastructureReady condition False/Deleted and falls through to
finalizer removal; any other Get error is returned; otherwise the remote
readiness is mirrored, a delete is issued on the provider object and the
pass returns without removing the finalizer. -/
def infraRefStep (env : DeleteEnv) (cluster : Cluster)
    (calls : List DeleteCall) : DeleteOutcome :=
  match cluster.spec.infrastructureRef with
  | none => finalizeDeletion cluster calls
  | some ref =>
    match env.providerGet ref with
    | .notFound =>
      finalizeDeletion (markFalse cluster "InfrastructureReady" "Deleted")
        calls
    | .failure msg =>
      { cluster := cluster, res := {},
        err := some ("failed to get " ++ ref.kind ++ " " ++ ref.name
          ++ ": " ++ msg),
        deletes := calls }
    | .found obj =>
      let cluster := setMirror cluster "InfrastructureReady" obj
      match env.deleteProvider obj with
      | some msg =>
        { cluster := cluster, res := {},
          err := some ("failed to delete " ++ obj.kind ++ " " ++ obj.name
            ++ ": " ++ msg),
          deletes := calls ++ [.provider obj] }
      | none =>
        { cluster := cluster, res := {}, err := none,
          deletes := calls ++ [.provider obj] }

/-- ControlPlaneRef step of reconcileDelete (cluster_controller.go lines
261-290): same three-way branch as the infrastructure step, on the
ControlPlaneReady condition; NotFound (or an absent reference) falls
through to the InfrastructureRef step. -/
def controlPlaneRefStep (env : DeleteEnv) (cluster : Cluster)
    (calls : List DeleteCall) : DeleteOutcome :=
  match cluster.spec.controlPlaneRef with
  | none => infraRefStep env cluster calls
  | some ref =>
    match env.providerGet ref with
    | .notFound =>
      infraRefStep env (markFalse cluster "ControlPlaneReady" "Deleted")
        calls
    | .failure msg =>
      { cluster := cluster, res := {},
        err := some ("failed to get " ++ ref.kind ++ " " ++ ref.name
          ++ ": " ++ msg),
        deletes := calls }
    | .found obj =>
      let cluster := setMirror cluster "ControlPlaneReady" obj
      match env.deleteProvider obj with
      | some msg =>
        { cluster := cluster, res := {},
          err := some ("failed to delete " ++ obj.kind ++ " " ++ obj.name
            ++ ": " ++ msg),
          deletes := calls ++ [.provider obj] }
      | none =>
        { cluster := cluster, res := {}, err := none,
          deletes := calls ++ [.provider obj] }

/-- reconcileDelete (cluster_controller.go lines 207-325): list the
descendant graph, delete the owned descendants not already being deleted
(aggregating delete failures), requeue after 5 seconds while the
descendant count is nonzero, then work through the ControlPlaneRef and
InfrastructureRef steps before removing the finalizer. -/
def reconcileDelete (env : DeleteEnv) (cluster : Cluster) : DeleteOutcome :=
  match env.listErr with
  | some msg =>
    { cluster := cluster, res := {}, err := some msg, deletes := [] }
  | none =>
    let descendants := listDescendants env cluster
    let children := filterOwnedDescendants env.machinePoolEnabled descendants
      cluster
    let toDelete := children.filter fun d => d.dmeta.deletionTimestamp = 0
    let calls := toDelete.map DeleteCall.child
    let delErrs := toDelete.filterMap env.deleteChild
    if delErrs ≠ [] then
      { cluster := cluster, res := {}, err := some (joinErrs delErrs),
        deletes := calls }
    else if 0 < descendants.length then
      { cluster := cluster, res := { requeueAfter := deleteRequeueAfter },
        err := none, deletes := calls }
    else
      controlPlaneRefStep env cluster calls

/-- Rank of a descendant kind in the fixed deletion order: MachinePools,
MachineDeployments, MachineSets, worker Machines, control-plane
Machines. -/
def kindRank : Descendant → Nat
  | .machinePool _ => 0
  | .machineDeployment _ => 1
  | .machineSet _ => 2
  | .workerMachine _ => 3
  | .controlPlaneMachine _ => 4

/-- Extract the descendant of an owned-child delete call. -/
def extractChild : DeleteCall → Option Descendant
  | .child d => some d
  | .provider _ => none

/-- The owned-descendant delete calls a deletion pass issued, in order. -/
def childDeletes (o : DeleteOutcome) : List Descendant :=
  o.deletes.filterMap extractChild

/-- An external reference slot counts as absent when it is nil or the
store resolves it to NotFound. -/
def refAbsent (env : DeleteEnv) : Option ObjectReference → Bool
  | none => true
  | some ref =>
    match env.providerGet ref with
    | .notFound => true
    | _ => false

/-- A phase step of the normal reconciliation path: it may mutate the
in-memory cluster and returns a requeue hint and an optional error. -/
def Step : Type := Cluster → Cluster × CtrlResult × Option String

/-- ctrl.Result.IsZero: equal to the zero result. -/
def isZeroResult (r : CtrlResult) : Bool :=
  !r.requeue && r.requeueAfter == 0

/-- Modelled from the spec: util.LowestNonZeroResult (not under src/)
merges two results, preferring the earliest (lowest non-zero)
requeue-after so a step needing a faster recheck is not starved. -/
def lowestNonZeroResult (i j : CtrlResult) : CtrlResult :=
  if isZeroResult i then j
  else if isZeroResult j then i
  else if i.requeue then i
  else if j.requeue then j
  else if i.requeueAfter < j.requeueAfter then i else j

/-- The phase loop of reconcile (cluster_controller.go lines 190-202):
every step is invoked; each step error is appended to errs; the merged
result is updated from a step result only while errs is still empty
after the append. -/
def runPhases : List Step → Cluster → CtrlResult → List String →
    Cluster × CtrlResult × List String
  | [], cluster, res, errs => (cluster, res, errs)
  | s :: rest, cluster, res, errs =>
    let out := s cluster
    let errs2 := match out.2.2 with
      | some msg => errs ++ [msg]
      | none => errs
    if errs2.isEmpty then
      runPhases rest out.1 (lowestNonZeroResult res out.2.1) errs2
    else
      runPhases rest out.1 res errs2

/-- Modelled from the spec: getActiveMachinesInCluster (not under src/)
keeps, of the machines labelled for the cluster, those not marked for
deletion. -/
def getActiveMachines (ms : List Machine) : List Machine :=
  ms.filter fun m => m.meta.deletionTimestamp = 0

/-- reconcileControlPlaneInitialized (cluster_controller.go lines
475-501): skipped when a ControlPlaneRef is set, returns immediately once
the flag is true, and otherwise sets the flag when some active
control-plane machine reports a node reference.  The machinesList
argument is the answer (or error) of the machine list query. -/
def reconcileControlPlaneInitialized
    (machinesList : Except String (List Machine)) : Step := fun cluster =>
  if cluster.spec.controlPlaneRef ≠ none then (cluster, {}, none)
  else if cluster.status.controlPlaneInitialized then (cluster, {}, none)
  else
    match machinesList with
    | .error msg => (cluster, {}, some msg)
    | .ok ms =>
      if (getActiveMachines ms).any
          (fun m => isControlPlaneMachine m && m.nodeRef.isSome) then
        ({ cluster with
            status := { cluster.status with controlPlaneInitialized := true } },
          {}, none)
      else (cluster, {}, none)

/-- Result of fetching the Cluster object at the top of Reconcile. -/
inductive ClusterGetResult where
  | notFound
  | failure (msg : String)
  | ok (cluster : Cluster)

/-- A patch option passed to patchHelper.Patch. -/
inductive PatchOpt where
  | withObservedGeneration
  | withOwnedConditions (ctypes : List String)
deriving DecidableEq

/-- Modelled from the spec: the summary status conditions.SetSummary
computes over the conditions of interest, worst status winning
(False beats Unknown beats True). -/
def summaryStatus (conds : List Condition) : ConditionStatus :=
  if conds.any (fun c => c.status = .isFalse) then .isFalse
  else if conds.any (fun c => c.status = .isUnknown) then .isUnknown
  else .isTrue

/-- Modelled from the spec: conditions.SetSummary (util/conditions, not
under src/) summarizes the given owned condition types into the Ready
condition. -/
def setSummary (cluster : Cluster) (ctypes : List String) : Cluster :=
  setCondition cluster
    { ctype := "Ready",
      status := summaryStatus (ctypes.filterMap (getCondition cluster)),
      severity := "Info" }

/-- patchCluster (cluster_controller.go lines 159-179): update the Ready
summary condition from ControlPlaneReady and InfrastructureReady, then
append the owned-conditions option naming the three condition types this
controller owns; returns the object to patch and the final option list. -/
def patchCluster (cluster : Cluster) (options : List PatchOpt) :
    Cluster × List PatchOpt :=
  let cluster := setSummary cluster ["ControlPlaneReady", "InfrastructureReady"]
  (cluster,
    options ++
      [PatchOpt.withOwnedConditions
        ["Ready", "ControlPlaneReady", "InfrastructureReady"]])

/-- Modelled from the spec: reconcilePhase (cluster_controller_phases.go,
not under src/) recomputes the phase field from the current state of the
object. -/
def computePhase (cluster : Cluster) : String :=
  if cluster.meta.deletionTimestamp ≠ 0 then "Deleting"
  else
    match getCondition cluster "Ready" with
    | some c => if c.status = .isTrue then "Provisioned" else "Provisioning"
    | none => "Provisioning"

/-- Modelled from the spec: write the recomputed phase into status. -/
def reconcilePhase (cluster : Cluster) : Cluster :=
  { cluster with
    status := { cluster.status with phase := computePhase cluster } }

/-- Modelled from the spec: annotations.IsPaused (not under src/); the
paused flag summarizes the spec field and the pause marker. -/
def isPaused (cluster : Cluster) : Bool := cluster.spec.paused

/-- Environment of one Reconcile pass: the fetched object, the patch
helper construction error (if any), the answer of the final patch call,
the three phase steps living outside src/
(reconcileInfrastructure, reconcileControlPlane, reconcileKubeconfig),
the machine list query answer used by reconcileControlPlaneInitialized,
and the deletion-path environment. -/
structure ReconcileEnv where
  getCluster : ClusterGetResult
  newHelperErr : Option String := none
  patchErr : Option String := none
  reconcileInfrastructure : Step := fun c => (c, {}, none)
  reconcileControlPlane : Step := fun c => (c, {}, none)
  reconcileKubeconfig : Step := fun c => (c, {}, none)
  machinesList : Except String (List Machine) := .ok []
  deleteEnv : DeleteEnv := { providerGet := fun _ => .notFound }

/-- The ordered phase list of reconcile (cluster_controller.go lines
183-188): infrastructure, control plane, kubeconfig,
control-plane-initialized. -/
def reconcilePhases (env : ReconcileEnv) : List Step :=
  [env.reconcileInfrastructure, env.reconcileControlPlane,
    env.reconcileKubeconfig,
    reconcileControlPlaneInitialized env.machinesList]

/-- reconcile (cluster_controller.go lines 182-204): run the four phase
steps in order through the phase loop. -/
def reconcile (env : ReconcileEnv) (cluster : Cluster) :
    Cluster × CtrlResult × List String :=
  runPhases (reconcilePhases env) cluster {} []

/-- What the body of one Reconcile pass (finalizer add, delete path or
normal path) produced before the deferred patch runs. -/
structure BodyResult where
  cluster : Cluster
  res : CtrlResult
  err : Option String
  deletes : List DeleteCall

/-- Everything one Reconcile pass produced: the final in-memory object
(none when the fetch failed or the pass exited before the deferred block),
the returned result and error, the delete calls issued, the option list of
the attempted status patch (none when the deferred block was not reached),
and — for stating properties — the body outcome before the deferred
patch. -/
structure ReconcileOutcome where
  cluster : Option Cluster
  res : CtrlResult
  err : Option String
  deletes : List DeleteCall
  patch : Option (List PatchOpt)
  bodyErr : Option String
  bodyCluster : Option Cluster

/-- The body dispatch of Reconcile (cluster_controller.go lines 144-157):
add the finalizer and return if it is absent, else take the deletion path
when a deletion timestamp is set, else the normal path. -/
def reconcileBody (env : ReconcileEnv) (cluster : Cluster) : BodyResult :=
  if containsFinalizer cluster clusterFinalizer = false then
    { cluster := addFinalizer cluster clusterFinalizer, res := {},
      err := none, deletes := [] }
  else if cluster.meta.deletionTimestamp ≠ 0 then
    let o := reconcileDelete env.deleteEnv cluster
    { cluster := o.cluster, res := o.res, err := o.err, deletes := o.deletes }
  else
    let r := reconcile env cluster
    { cluster := r.1, res := r.2.1,
      err := if r.2.2.isEmpty then none else some (joinErrs r.2.2),
      deletes := [] }

/-- Reconcile (cluster_controller.go lines 100-157): fetch the object
(NotFound is a clean no-op), skip paused objects, build the patch helper,
run the body, and on every exit path that reaches the deferred block
recompute the phase and attempt the status patch — including the
observed-generation option only when the pass completed without error,
and aggregating a patch failure into the returned error. -/
def Reconcile (env : ReconcileEnv) : ReconcileOutcome :=
  match env.getCluster with
  | .notFound =>
    { cluster := none, res := {}, err := none, deletes := [],
      patch := none, bodyErr := none, bodyCluster := none }
  | .failure msg =>
    { cluster := none, res := {}, err := some msg, deletes := [],
      patch := none, bodyErr := none, bodyCluster := none }
  | .ok cluster =>
    if isPaused cluster then
      { cluster := some cluster, res := {}, err := none, deletes := [],
        patch := none, bodyErr := none, bodyCluster := none }
    else
      match env.newHelperErr with
      | some msg =>
        { cluster := some cluster, res := {}, err := some msg,
          deletes := [], patch := none, bodyErr := none, bodyCluster := none }
      | none =>
        let body := reconcileBody env cluster
        let c1 := reconcilePhase body.cluster
        let patchOpts : List PatchOpt :=
          if body.err = none then [PatchOpt.withObservedGeneration] else []
        let pr := patchCluster c1 patchOpts
        let finalErr : Option String :=
          match env.patchErr with
          | some pe =>
            some (joinErrs
              ((match body.err with | some e => [e] | none => []) ++ [pe]))
          | none => body.err
        { cluster := some pr.1, res := body.res, err := finalErr,
          deletes := body.deletes, patch := some pr.2,
          bodyErr := body.err, bodyCluster := some body.cluster }

/-- A changed object delivered to the watch mapper; the type assertion of
the source can meet a non-Machine object. -/
inductive MapObject where
  | machine (m : Machine)
  | other (typeName : String)

/-- Answer of util.GetClusterByName for the mapper: keyed by namespace
and cluster name. -/
structure MapperEnv where
  getClusterByName : String → String → Except String Cluster

/-- A reconcile request naming a Cluster. -/
structure Request where
  nspace : String
  name : String
deriving DecidableEq

/-- controlPlaneMachineToCluster (cluster_controller.go lines 505-531):
map a changed Machine to at most one reconcile request for its owning
Cluster; non-Machines, non-control-plane machines, machines without a
node reference, failed cluster lookups and already-initialized clusters
all yield zero requests, and the lookup failure is swallowed. -/
def controlPlaneMachineToCluster (env : MapperEnv) (o : MapObject) :
    List Request :=
  match o with
  | .other _ => []
  | .machine m =>
    if ¬ isControlPlaneMachine m then []
    else if m.nodeRef = none then []
    else
      match env.getClusterByName m.meta.nspace m.clusterName with
      | .error _ => []
      | .ok cluster =>
        if cluster.status.controlPlaneInitialized then []
        else [{ nspace := cluster.meta.nspace, name := cluster.meta.name }]

/-- Reference list of the outputs the phase steps produce when run in
sequence from a starting cluster (used to state the phase-loop claim). -/
def stepOutputs : List Step → Cluster →
    List (Cluster × CtrlResult × Option String)
  | [], _ => []
  | s :: rest, cluster => s cluster :: stepOutputs rest (s cluster).1

/-- The cluster state after every step has run once, in order. -/
def finalCluster (steps : List Step) (cluster : Cluster) : Cluster :=
  steps.foldl (fun c s => (s c).1) cluster

/-- All step errors, in step order. -/
def allStepErrors (steps : List Step) (cluster : Cluster) : List String :=
  (stepOutputs steps cluster).filterMap fun t => t.2.2

/-- The requeue hints of the steps that ran before the first error. -/
def preErrorResults (steps : List Step) (cluster : Cluster) :
    List CtrlResult :=
  ((stepOutputs steps cluster).takeWhile fun t => t.2.2.isNone).map
    fun t => t.2.1

/-- Merge of two requeue-after delays: zero is the identity, otherwise
the smaller delay wins. -/
def minNZ (a b : Nat) : Nat :=
  if a = 0 then b else if b = 0 then a else min a b

/-- The lowest non-zero element of a list of delays (zero if none). -/
def minNonZero (l : List Nat) : Nat := l.foldl minNZ 0

/-- A MachinePool owned by cluster c1 and already being deleted. -/
def mpC1 : MachinePool :=
  { meta := { name := "mp1",
              ownerRefs := [{ kind := "Cluster", name := "c1" }],
              deletionTimestamp := 1 } }

/-- A cluster under deletion carrying the finalizer and no external
references. -/
def clusterC1 : Cluster :=
  { meta := { name := "c1", deletionTimestamp := 1,
              finalizers := [clusterFinalizer] } }

/-- A deletion pass in which the MachinePool feature is enabled and the
only remaining descendant is the MachinePool mpC1. -/
def envC1 : DeleteEnv :=
  { machinePoolEnabled := true, machinePools := [mpC1],
    providerGet := fun _ => GetResult.notFound }

/-- A cluster under deletion with the finalizer and one extra finalizer. -/
def clusterC2w : Cluster :=
  { meta := { name := "c2", deletionTimestamp := 1,
              finalizers := ["other.io/keep", clusterFinalizer] } }

/-- A deletion pass with an empty descendant graph and both references
resolving to NotFound. -/
def envC2w : DeleteEnv :=
  { providerGet := fun _ => GetResult.notFound }

/-- Owner reference to the cluster named c4. -/
def ownerC4 : OwnerRef := { kind := "Cluster", name := "c4" }

/-- One owned MachinePool for the ordering witness. -/
def mpC4 : MachinePool := { meta := { name := "mp4", ownerRefs := [ownerC4] } }

/-- One owned MachineDeployment for the ordering witness. -/
def mdC4 : MachineDeployment :=
  { meta := { name := "md4", ownerRefs := [ownerC4] } }

/-- One owned MachineSet for the ordering witness. -/
def msC4 : MachineSet := { meta := { name := "ms4", ownerRefs := [ownerC4] } }

/-- One owned worker Machine for the ordering witness. -/
def wmC4 : Machine := { meta := { name := "wm4", ownerRefs := [ownerC4] } }

/-- One owned control-plane Machine for the ordering witness. -/
def cpmC4 : Machine :=
  { meta := { name := "cpm4", ownerRefs := [ownerC4],
              labels := [(machineControlPlaneLabelName, "")] } }

/-- A cluster under deletion without a ControlPlaneRef, owning one
descendant of every kind. -/
def clusterC4w : Cluster :=
  { meta := { name := "c4", deletionTimestamp := 1,
              finalizers := [clusterFinalizer] } }

/-- Deletion pass for the ordering witness: the MachinePool feature is
enabled and the graph holds one descendant of each kind. -/
def envC4w : DeleteEnv :=
  { machinePoolEnabled := true,
    machineDeployments := [mdC4], machineSets := [msC4],
    machinePools := [mpC4], machines := [wmC4, cpmC4],
    providerGet := fun _ => GetResult.notFound }

/-- The condition conditions.MarkFalse writes for a deleted provider
object: False with reason Deleted and Info severity. -/
def deletedCondition (t : String) : Condition :=
  { ctype := t, status := .isFalse, severity := "Info",
    reason := "Deleted", message := "" }

/-- External control-plane reference for the teardown witness. -/
def rcpC6 : ObjectReference :=
  { apiVersion := "cp/v1", kind := "CP", name := "cp1" }

/-- External infrastructure reference for the teardown witness. -/
def rinfC6 : ObjectReference :=
  { apiVersion := "inf/v1", kind := "Infra", name := "inf1" }

/-- The provider object the infrastructure reference resolves to. -/
def objC6 : ProviderObject :=
  { kind := "Infra", name := "inf1",
    conditions := [{ ctype := "Ready", status := .isTrue, reason := "Up" }] }

/-- A cluster under deletion with both external references set. -/
def clusterC6w : Cluster :=
  { meta := { name := "c6", deletionTimestamp := 1,
              finalizers := [clusterFinalizer] },
    spec := { controlPlaneRef := some rcpC6,
              infrastructureRef := some rinfC6 } }

/-- Teardown witness pass: the control-plane reference is already gone,
the infrastructure reference still resolves. -/
def envC6w : DeleteEnv :=
  { providerGet := fun r =>
      if r = rinfC6 then GetResult.found objC6 else GetResult.notFound }

/-- The finalizer list of the final in-memory object of a pass (empty
when the pass exited before reaching a fetched object). -/
def finalFinalizers (o : ReconcileOutcome) : List String :=
  match o.cluster with
  | some c => c.meta.finalizers
  | none => []

/-- Infrastructure phase step for the phase-loop witness: asks for a
30-second recheck. -/
def stepInfraC5 : Step := fun c => (c, { requeueAfter := 30 }, none)

/-- Control-plane phase step for the phase-loop witness: asks for a
10-second recheck. -/
def stepCPC5 : Step := fun c => (c, { requeueAfter := 10 }, none)

/-- Kubeconfig phase step for the phase-loop witness: fails. -/
def stepKubeC5 : Step := fun c => (c, {}, some "kubeconfig missing")

/-- Cluster for the phase-loop witness. -/
def clusterC5w : Cluster :=
  { meta := { name := "c5", finalizers := [clusterFinalizer] } }

/-- Normal-path pass for the phase-loop witness. -/
def envC5w : ReconcileEnv :=
  { getCluster := ClusterGetResult.ok clusterC5w,
    reconcileInfrastructure := stepInfraC5,
    reconcileControlPlane := stepCPC5,
    reconcileKubeconfig := stepKubeC5 }

/-- An active control-plane Machine with a node reference, for the
control-plane-initialized witness. -/
def mC7 : Machine :=
  { meta := { name := "m7",
              labels := [(machineControlPlaneLabelName, "")] },
    nodeRef := some "node7" }

/-- Cluster for the control-plane-initialized witness: no external
control-plane provider and flag still false. -/
def clusterC7w : Cluster := { meta := { name := "c7" } }

/-- A control-plane Machine with a node reference, for the watch-mapper
witness. -/
def mC8 : Machine :=
  { meta := { name := "m8", nspace := "ns8",
              labels := [(machineControlPlaneLabelName, "")] },
    nodeRef := some "node8", clusterName := "c8" }

/-- The owning cluster the mapper witness resolves to. -/
def clusterC8 : Cluster := { meta := { name := "c8", nspace := "ns8" } }

/-- Mapper environment for the watch-mapper witness. -/
def envC8w : MapperEnv :=
  { getClusterByName := fun ns name =>
      if ns = "ns8" && name = "c8" then Except.ok clusterC8
      else Except.error "not found" }

/-- A Cluster being deleted that does not carry the Cluster finalizer. -/
def clusterC3x : Cluster :=
  { meta := { name := "c3", deletionTimestamp := 1 } }

/-- Pass fetching clusterC3x. -/
def envC3x : ReconcileEnv := { getCluster := ClusterGetResult.ok clusterC3x }

/-- A Cluster being deleted that carries the Cluster finalizer. -/
def clusterC3w : Cluster :=
  { meta := { name := "c3w", deletionTimestamp := 1,
              finalizers := [clusterFinalizer] } }

/-- Pass fetching clusterC3w, with an empty descendant graph. -/
def envC3w : ReconcileEnv := { getCluster := ClusterGetResult.ok clusterC3w }

/-- A Cluster on the normal path for the deferred-patch witness. -/
def clusterC9w : Cluster :=
  { meta := { name := "c9", finalizers := [clusterFinalizer] } }

/-- Pass fetching clusterC9w with error-free phase steps. -/
def envC9w : ReconcileEnv := { getCluster := ClusterGetResult.ok clusterC9w }

theorem splitMachineList_eq (l : List Machine) :
    splitMachineList l =
      (l.filter isControlPlaneMachine,
       l.filter fun m => ! isControlPlaneMachine m) := by
  induction l with
  | nil => rfl
  | cons m rest ih =>
    by_cases h : isControlPlaneMachine m = true
    · simp [splitMachineList, ih, List.filter_cons, h]
    · simp only [Bool.not_eq_true] at h
      simp [splitMachineList, ih, List.filter_cons, h]

theorem count_filter_add_count_filter_not {α : Type} [DecidableEq α]
    (p : α → Bool) (a : α) (l : List α) :
    (l.filter p).count a + (l.filter fun x => ! p x).count a = l.count a := by
  induction l with
  | nil => rfl
  | cons x rest ih =>
    by_cases hp : p x = true
    · rw [List.filter_cons_of_pos hp,
        List.filter_cons_of_neg (by simp [hp])]
      by_cases hax : x = a
      · subst hax
        rw [List.count_cons_self, List.count_cons_self]
        omega
      · rw [List.count_cons_of_ne (Ne.symm hax),
          List.count_cons_of_ne (Ne.symm hax)]
        omega
    · rw [List.filter_cons_of_neg (by simp [hp]),
        List.filter_cons_of_pos (by simp [hp])]
      by_cases hax : x = a
      · subst hax
        rw [List.count_cons_self, List.count_cons_self]
        omega
      · rw [List.count_cons_of_ne (Ne.symm hax),
          List.count_cons_of_ne (Ne.symm hax)]
        omega

theorem length_filter_add_length_filter_not {α : Type}
    (p : α → Bool) (l : List α) :
    (l.filter p).length + (l.filter fun x => ! p x).length = l.length := by
  induction l with
  | nil => rfl
  | cons x rest ih =>
    by_cases hp : p x = true
    · rw [List.filter_cons_of_pos hp,
        List.filter_cons_of_neg (by simp [hp])]
      simp only [List.length_cons]
      omega
    · rw [List.filter_cons_of_neg (by simp [hp]),
        List.filter_cons_of_pos (by simp [hp])]
      simp only [List.length_cons]
      omega

/-- C10: splitMachineList is a partition of the input machine list: a
Machine lands in the control-plane output iff it is a control-plane
Machine and in the worker output otherwise, multiplicities are preserved
(no machine dropped or duplicated), each output is a sublist of the input
(relative order preserved), and the output lengths sum to the input
length. -/
theorem C10_splitMachineList_partition (l : List Machine) :
    (∀ m, m ∈ (splitMachineList l).1 ↔ m ∈ l ∧ isControlPlaneMachine m = true) ∧
    (∀ m, m ∈ (splitMachineList l).2 ↔ m ∈ l ∧ isControlPlaneMachine m = false) ∧
    (∀ m, (splitMachineList l).1.count m + (splitMachineList l).2.count m
        = l.count m) ∧
    (splitMachineList l).1.Sublist l ∧
    (splitMachineList l).2.Sublist l ∧
    (splitMachineList l).1.length + (splitMachineList l).2.length = l.length := by
  rw [splitMachineList_eq]
  refine ⟨?_, ?_, ?_, ?_, ?_, ?_⟩
  · intro m; simp [List.mem_filter]
  · intro m; simp [List.mem_filter]
  · intro m; exact count_filter_add_count_filter_not _ m l
  · exact List.filter_sublist l
  · exact List.filter_sublist l
  · exact length_filter_add_length_filter_not _ l

theorem setCondition_meta (cluster : Cluster) (cond : Condition) :
    (setCondition cluster cond).meta = cluster.meta := rfl

theorem setCondition_spec (cluster : Cluster) (cond : Condition) :
    (setCondition cluster cond).spec = cluster.spec := rfl

theorem infraRefStep_finalizers (env : DeleteEnv) (cluster : Cluster)
    (calls : List DeleteCall) :
    (infraRefStep env cluster calls).cluster.meta.finalizers
      = if refAbsent env cluster.spec.infrastructureRef then
          cluster.meta.finalizers.filter (fun f => f ≠ clusterFinalizer)
        else cluster.meta.finalizers := by
  cases href : cluster.spec.infrastructureRef with
  | none =>
    simp [infraRefStep, href, refAbsent, finalizeDeletion, removeFinalizer]
  | some ref =>
    cases hget : env.providerGet ref with
    | notFound =>
      simp [infraRefStep, href, hget, refAbsent, finalizeDeletion,
        removeFinalizer, markFalse, setCondition]
    | failure msg =>
      simp [infraRefStep, href, hget, refAbsent]
    | found obj =>
      cases hdel : env.deleteProvider obj with
      | none =>
        simp [infraRefStep, href, hget, hdel, refAbsent, setMirror,
          setCondition]
      | some msg =>
        simp [infraRefStep, href, hget, hdel, refAbsent, setMirror,
          setCondition]

theorem controlPlaneRefStep_finalizers (env : DeleteEnv) (cluster : Cluster)
    (calls : List DeleteCall) :
    (controlPlaneRefStep env cluster calls).cluster.meta.finalizers
      = if refAbsent env cluster.spec.controlPlaneRef &&
            refAbsent env cluster.spec.infrastructureRef then
          cluster.meta.finalizers.filter (fun f => f ≠ clusterFinalizer)
        else cluster.meta.finalizers := by
  cases href : cluster.spec.controlPlaneRef with
  | none =>
    rw [controlPlaneRefStep]
    simp only [href]
    rw [infraRefStep_finalizers]
    simp [refAbsent, href]
  | some ref =>
    cases hget : env.providerGet ref with
    | notFound =>
      rw [controlPlaneRefStep]
      simp only [href, hget]
      rw [infraRefStep_finalizers]
      simp [refAbsent, href, hget, markFalse, setCondition]
    | failure msg =>
      rw [controlPlaneRefStep]
      simp only [href, hget]
      simp [refAbsent, href, hget]
    | found obj =>
      cases hdel : env.deleteProvider obj with
      | none =>
        rw [controlPlaneRefStep]
        simp only [href, hget]
        simp [refAbsent, href, hget, hdel, setMirror, setCondition]
      | some msg =>
        rw [controlPlaneRefStep]
        simp only [href, hget]
        simp [refAbsent, href, hget, hdel, setMirror, setCondition]

theorem reconcileDelete_finalizers_cases (env : DeleteEnv)
    (cluster : Cluster) :
    (reconcileDelete env cluster).cluster.meta.finalizers
        = cluster.meta.finalizers ∨
      ((reconcileDelete env cluster).cluster.meta.finalizers
          = cluster.meta.finalizers.filter (fun f => f ≠ clusterFinalizer) ∧
        env.listErr = none ∧
        (listDescendants env cluster).length = 0 ∧
        refAbsent env cluster.spec.controlPlaneRef = true ∧
        refAbsent env cluster.spec.infrastructureRef = true) := by
  rw [reconcileDelete]
  cases hl : env.listErr with
  | some msg => left; rfl
  | none =>
    simp only []
    split
    · left; rfl
    · split
      · left; rfl
      · rename_i herr hlen
        rw [controlPlaneRefStep_finalizers]
        cases hcp : refAbsent env cluster.spec.controlPlaneRef with
        | false => left; simp [hcp]
        | true =>
          cases hinf : refAbsent env cluster.spec.infrastructureRef with
          | false => left; simp [hcp, hinf]
          | true =>
            right
            refine ⟨by simp [hcp, hinf], ?_, ?_, ?_, ?_⟩ <;>
              first
              | trivial
              | omega

/-- C2: the deletion coordinator removes the Cluster finalizer only when
the descendant count of the pass is zero and both external references are
nil or resolve to NotFound; on a pass with an empty descendant graph and
both references absent it removes the finalizer (every copy, exactly
once), and it never adds any finalizer. -/
theorem C2_finalizer_removal (env : DeleteEnv) (cluster : Cluster) :
    (clusterFinalizer ∈ cluster.meta.finalizers →
      clusterFinalizer ∉ (reconcileDelete env cluster).cluster.meta.finalizers →
      env.listErr = none ∧
        (listDescendants env cluster).length = 0 ∧
        refAbsent env cluster.spec.controlPlaneRef = true ∧
        refAbsent env cluster.spec.infrastructureRef = true) ∧
    (env.listErr = none →
      listDescendants env cluster = {} →
      refAbsent env cluster.spec.controlPlaneRef = true →
      refAbsent env cluster.spec.infrastructureRef = true →
      (reconcileDelete env cluster).cluster.meta.finalizers
        = cluster.meta.finalizers.filter (fun f => f ≠ clusterFinalizer)) ∧
    (∀ f, f ∈ (reconcileDelete env cluster).cluster.meta.finalizers →
      f ∈ cluster.meta.finalizers) := by
  refine ⟨?_, ?_, ?_⟩
  · intro hin hout
    rcases reconcileDelete_finalizers_cases env cluster with h | ⟨_, h⟩
    · rw [h] at hout; exact absurd hin hout
    · exact h
  · intro hl hd hcp hinf
    have hempty :
        filterOwnedDescendants env.machinePoolEnabled {} cluster = [] := by
      simp [filterOwnedDescendants, descendantLists]
    simp only [reconcileDelete, hl, hd, hempty, List.filter_nil,
      List.filterMap_nil, List.map_nil, clusterDescendants.length,
      List.length_nil, Nat.add_zero, Nat.lt_irrefl, if_false,
      ne_eq, not_true_eq_false, if_true, not_false_eq_true]
    rw [controlPlaneRefStep_finalizers, hcp, hinf]
    simp
  · intro f hf
    rcases reconcileDelete_finalizers_cases env cluster with h | ⟨h, _⟩
    · rw [h] at hf; exact hf
    · rw [h] at hf; exact (List.mem_filter.1 hf).1

theorem C2_finalizer_removal_witness :
    (reconcileDelete envC2w clusterC2w).cluster.meta.finalizers
      = ["other.io/keep"] :=
  ((C2_finalizer_removal envC2w clusterC2w).2.1 rfl (by decide) rfl
    rfl).trans (by decide)

/-- C1 (claim falsified by the code): on a deletion pass whose only
remaining descendant is a MachinePool, with the MachinePool feature
enabled, the descendant graph still contains a descendant, yet
reconcileDelete returns a zero requeue delay (not 5 seconds), removes the
finalizer and proceeds past the external references —
clusterDescendants.length omits the machinePools collection although the
surrounding code (listDescendants, descendantNames,
filterOwnedDescendants) treats MachinePools as descendants. -/
theorem C1_machinePool_only_descendant_not_requeued :
    envC1.machinePoolEnabled = true ∧
    (listDescendants envC1 clusterC1).machinePools = [mpC1] ∧
    (reconcileDelete envC1 clusterC1).res
      = { requeue := false, requeueAfter := 0 } ∧
    clusterFinalizer ∉
      (reconcileDelete envC1 clusterC1).cluster.meta.finalizers ∧
    (reconcileDelete envC1 clusterC1).err = none := by
  decide

theorem pairwise_rankLE_map {α : Type} (f : α → Descendant) (n : Nat)
    (hf : ∀ a, kindRank (f a) = n) (l : List α) :
    (l.map f).Pairwise (fun a b => kindRank a ≤ kindRank b) := by
  induction l with
  | nil => exact List.Pairwise.nil
  | cons a t ih =>
    rw [List.map_cons]
    refine List.Pairwise.cons ?_ ih
    intro b hb
    rcases List.mem_map.1 hb with ⟨x, _, rfl⟩
    rw [hf a, hf x]

theorem rank_of_mem_map {α : Type} (f : α → Descendant) (n : Nat)
    (hf : ∀ a, kindRank (f a) = n) {l : List α} {d : Descendant}
    (hd : d ∈ l.map f) : kindRank d = n := by
  rcases List.mem_map.1 hd with ⟨a, _, rfl⟩
  exact hf a

theorem pairwise_descendantLists (enabled : Bool)
    (c : clusterDescendants) :
    (descendantLists enabled c).Pairwise
      (fun a b => kindRank a ≤ kindRank b) := by
  have hmd := pairwise_rankLE_map Descendant.machineDeployment 1
    (fun _ => rfl) c.machineDeployments
  have hms := pairwise_rankLE_map Descendant.machineSet 2
    (fun _ => rfl) c.machineSets
  have hwm := pairwise_rankLE_map Descendant.workerMachine 3
    (fun _ => rfl) c.workerMachines
  have hcpm := pairwise_rankLE_map Descendant.controlPlaneMachine 4
    (fun _ => rfl) c.controlPlaneMachines
  have hbase :
      (c.machineDeployments.map Descendant.machineDeployment ++
        c.machineSets.map Descendant.machineSet ++
        c.workerMachines.map Descendant.workerMachine ++
        c.controlPlaneMachines.map Descendant.controlPlaneMachine).Pairwise
        (fun a b => kindRank a ≤ kindRank b) := by
    refine List.pairwise_append.2 ⟨?_, hcpm, ?_⟩
    · refine List.pairwise_append.2 ⟨?_, hwm, ?_⟩
      · refine List.pairwise_append.2 ⟨hmd, hms, ?_⟩
        intro a ha b hb
        rw [rank_of_mem_map Descendant.machineDeployment 1 (fun _ => rfl) ha,
          rank_of_mem_map Descendant.machineSet 2 (fun _ => rfl) hb]
        omega
      · intro a ha b hb
        rw [rank_of_mem_map Descendant.workerMachine 3 (fun _ => rfl) hb]
        rcases List.mem_append.1 ha with h | h
        · rw [rank_of_mem_map Descendant.machineDeployment 1
            (fun _ => rfl) h]
          omega
        · rw [rank_of_mem_map Descendant.machineSet 2 (fun _ => rfl) h]
          omega
    · intro a ha b hb
      rw [rank_of_mem_map Descendant.controlPlaneMachine 4
        (fun _ => rfl) hb]
      rcases List.mem_append.1 ha with h | h
      · rcases List.mem_append.1 h with h2 | h2
        · rw [rank_of_mem_map Descendant.machineDeployment 1
            (fun _ => rfl) h2]
          omega
        · rw [rank_of_mem_map Descendant.machineSet 2 (fun _ => rfl) h2]
          omega
      · rw [rank_of_mem_map Descendant.workerMachine 3 (fun _ => rfl) h]
        omega
  cases enabled with
  | false => simpa [descendantLists] using hbase
  | true =>
    rw [descendantLists]
    simp only [if_true]
    refine List.pairwise_append.2 ⟨?_, hbase, ?_⟩
    · exact pairwise_rankLE_map Descendant.machinePool 0 (fun _ => rfl) _
    · intro a ha b _
      rw [rank_of_mem_map Descendant.machinePool 0 (fun _ => rfl) ha]
      exact Nat.zero_le _

theorem filterMap_extractChild_map (l : List Descendant) :
    (l.map DeleteCall.child).filterMap extractChild = l := by
  induction l with
  | nil => rfl
  | cons d t ih => simp [extractChild, ih]

theorem childDeletes_infraRefStep (env : DeleteEnv) (cluster : Cluster)
    (calls : List DeleteCall) :
    (infraRefStep env cluster calls).deletes.filterMap extractChild
      = calls.filterMap extractChild := by
  cases href : cluster.spec.infrastructureRef with
  | none => simp [infraRefStep, href, finalizeDeletion]
  | some ref =>
    cases hget : env.providerGet ref with
    | notFound => simp [infraRefStep, href, hget, finalizeDeletion]
    | failure msg => simp [infraRefStep, href, hget]
    | found obj =>
      cases hdel : env.deleteProvider obj with
      | none => simp [infraRefStep, href, hget, hdel, extractChild]
      | some msg => simp [infraRefStep, href, hget, hdel, extractChild]

theorem childDeletes_controlPlaneRefStep (env : DeleteEnv)
    (cluster : Cluster) (calls : List DeleteCall) :
    (controlPlaneRefStep env cluster calls).deletes.filterMap extractChild
      = calls.filterMap extractChild := by
  cases href : cluster.spec.controlPlaneRef with
  | none => simp [controlPlaneRefStep, href, childDeletes_infraRefStep]
  | some ref =>
    cases hget : env.providerGet ref with
    | notFound =>
      simp [controlPlaneRefStep, href, hget, childDeletes_infraRefStep]
    | failure msg => simp [controlPlaneRefStep, href, hget]
    | found obj =>
      cases hdel : env.deleteProvider obj with
      | none => simp [controlPlaneRefStep, href, hget, hdel, extractChild]
      | some msg => simp [controlPlaneRefStep, href, hget, hdel, extractChild]

theorem childDeletes_reconcileDelete (env : DeleteEnv) (cluster : Cluster) :
    childDeletes (reconcileDelete env cluster) = [] ∨
    childDeletes (reconcileDelete env cluster)
      = (filterOwnedDescendants env.machinePoolEnabled
          (listDescendants env cluster) cluster).filter
          (fun d => d.dmeta.deletionTimestamp = 0) := by
  cases hl : env.listErr with
  | some msg => left; simp [childDeletes, reconcileDelete, hl]
  | none =>
    right
    rw [childDeletes, reconcileDelete]
    simp only [hl]
    split
    · exact filterMap_extractChild_map _
    · split
      · exact filterMap_extractChild_map _
      · rw [childDeletes_controlPlaneRefStep]
        exact filterMap_extractChild_map _

theorem childDeletes_sublist (env : DeleteEnv) (cluster : Cluster) :
    (childDeletes (reconcileDelete env cluster)).Sublist
      (descendantLists env.machinePoolEnabled
        (listDescendants env cluster)) := by
  rcases childDeletes_reconcileDelete env cluster with h | h
  · rw [h]; exact List.nil_sublist _
  · rw [h]
    exact (List.filter_sublist _).trans (List.filter_sublist _)

theorem mem_descendantLists_cpm {enabled : Bool} {ds : clusterDescendants}
    {m : Machine}
    (h : Descendant.controlPlaneMachine m ∈ descendantLists enabled ds) :
    m ∈ ds.controlPlaneMachines := by
  cases enabled with
  | false => simpa [descendantLists, List.mem_append, List.mem_map] using h
  | true => simpa [descendantLists, List.mem_append, List.mem_map] using h

theorem not_mem_descendantLists_mp {ds : clusterDescendants}
    {mp : MachinePool} :
    Descendant.machinePool mp ∉ descendantLists false ds := by
  intro h
  simp [descendantLists, List.mem_append, List.mem_map] at h

/-- C4: the owned-descendant delete step issues its delete calls in the
fixed kind order MachinePools, MachineDeployments, MachineSets, worker
Machines, control-plane Machines (so control-plane machines always come
last and MachinePool deletes precede MachineDeployment deletes); a
control-plane machine is requested only when the Cluster has no
ControlPlaneRef; and no MachinePool delete is issued when the feature is
disabled. -/
theorem C4_owned_descendant_delete_order (env : DeleteEnv)
    (cluster : Cluster) :
    (childDeletes (reconcileDelete env cluster)).Pairwise
        (fun a b => kindRank a ≤ kindRank b) ∧
    (∀ m, Descendant.controlPlaneMachine m ∈
        childDeletes (reconcileDelete env cluster) →
      cluster.spec.controlPlaneRef = none) ∧
    (env.machinePoolEnabled = false →
      ∀ mp, Descendant.machinePool mp ∉
        childDeletes (reconcileDelete env cluster)) := by
  refine ⟨?_, ?_, ?_⟩
  · exact List.Pairwise.sublist (childDeletes_sublist env cluster)
      (pairwise_descendantLists _ _)
  · intro m hm
    have hmem := (childDeletes_sublist env cluster).subset hm
    have hcpms := mem_descendantLists_cpm hmem
    by_cases hcp : cluster.spec.controlPlaneRef = none
    · exact hcp
    · exfalso
      rw [listDescendants] at hcpms
      simp only [if_neg hcp] at hcpms
      exact absurd hcpms (List.not_mem_nil m)
  · intro hen mp hmp
    have hmem := (childDeletes_sublist env cluster).subset hmp
    rw [hen] at hmem
    exact not_mem_descendantLists_mp hmem

theorem C4_owned_descendant_delete_order_witness :
    childDeletes (reconcileDelete envC4w clusterC4w)
        = [Descendant.machinePool mpC4, Descendant.machineDeployment mdC4,
            Descendant.machineSet msC4, Descendant.workerMachine wmC4,
            Descendant.controlPlaneMachine cpmC4] ∧
    (childDeletes (reconcileDelete envC4w clusterC4w)).Pairwise
        (fun a b => kindRank a ≤ kindRank b) :=
  ⟨by decide, (C4_owned_descendant_delete_order envC4w clusterC4w).1⟩

theorem find_cond_filter_append (l : List Condition) (cond : Condition)
    (t : String) :
    ((l.filter fun c => c.ctype ≠ cond.ctype) ++ [cond]).find?
        (fun c => c.ctype = t)
      = if cond.ctype = t then some cond
        else l.find? (fun c => c.ctype = t) := by
  induction l with
  | nil =>
    by_cases h : cond.ctype = t <;> simp [List.find?, h]
  | cons x xs ih =>
    by_cases hx : x.ctype = cond.ctype
    · rw [List.filter_cons_of_neg (by simp [hx])]
      rw [ih]
      by_cases h : cond.ctype = t
      · simp [h]
      · rw [if_neg h, if_neg h,
          List.find?_cons_of_neg _ (by
            simp only [decide_eq_true_eq]
            exact fun hc => h (hx ▸ hc))]
    · rw [List.filter_cons_of_pos (by simp [hx]), List.cons_append]
      by_cases hpx : x.ctype = t
      · have h : ¬ cond.ctype = t := fun hc => hx (hpx.trans hc.symm)
        rw [List.find?_cons_of_pos _ (by simp [hpx]), if_neg h,
          List.find?_cons_of_pos _ (by simp [hpx])]
      · rw [List.find?_cons_of_neg _ (by simp [hpx]), ih]
        by_cases h : cond.ctype = t
        · rw [if_pos h, if_pos h]
        · rw [if_neg h, if_neg h,
            List.find?_cons_of_neg _ (by simp [hpx])]

theorem getCondition_setCondition (cluster : Cluster) (cond : Condition)
    (t : String) :
    getCondition (setCondition cluster cond) t
      = if cond.ctype = t then some cond else getCondition cluster t := by
  unfold getCondition setCondition
  exact find_cond_filter_append _ _ _

theorem mirrorCondition_ctype (obj : ProviderObject) (t : String) :
    (mirrorCondition obj t).ctype = t := by
  unfold mirrorCondition
  cases obj.conditions.find? (fun c => c.ctype = "Ready") <;> rfl

theorem getCondition_removeFinalizer (cluster : Cluster) (f t : String) :
    getCondition (removeFinalizer cluster f) t = getCondition cluster t := rfl

theorem getCondition_infraRefStep_other (env : DeleteEnv)
    (cluster : Cluster) (calls : List DeleteCall) (t : String)
    (ht : t ≠ "InfrastructureReady") :
    getCondition (infraRefStep env cluster calls).cluster t
      = getCondition cluster t := by
  cases href : cluster.spec.infrastructureRef with
  | none => simp [infraRefStep, href, finalizeDeletion,
      getCondition_removeFinalizer]
  | some ref =>
    cases hget : env.providerGet ref with
    | notFound =>
      simp only [infraRefStep, href, hget, finalizeDeletion, markFalse,
        getCondition_removeFinalizer]
      rw [getCondition_setCondition]
      rw [if_neg (fun hc => ht hc.symm)]
    | failure msg => simp [infraRefStep, href, hget]
    | found obj =>
      cases hdel : env.deleteProvider obj with
      | none =>
        simp only [infraRefStep, href, hget, hdel, setMirror]
        rw [getCondition_setCondition, mirrorCondition_ctype]
        rw [if_neg (fun hc => ht hc.symm)]
      | some msg =>
        simp only [infraRefStep, href, hget, hdel, setMirror]
        rw [getCondition_setCondition, mirrorCondition_ctype]
        rw [if_neg (fun hc => ht hc.symm)]

theorem infraStep_threeway (env : DeleteEnv) (cluster cl2 : Cluster)
    (hspec : cl2.spec = cluster.spec)
    (hmeta : cl2.meta = cluster.meta)
    (r : ObjectReference) (hr : cluster.spec.infrastructureRef = some r) :
    (env.providerGet r = .notFound →
      getCondition (infraRefStep env cl2 []).cluster "InfrastructureReady"
        = some (deletedCondition "InfrastructureReady") ∧
      (infraRefStep env cl2 []).cluster.meta.finalizers
        = cluster.meta.finalizers.filter (fun f => f ≠ clusterFinalizer)) ∧
    (∀ msg, env.providerGet r = .failure msg →
      (infraRefStep env cl2 []).err.isSome = true ∧
      (infraRefStep env cl2 []).cluster.meta.finalizers
        = cluster.meta.finalizers ∧
      (infraRefStep env cl2 []).deletes = []) ∧
    (∀ obj, env.providerGet r = .found obj →
      getCondition (infraRefStep env cl2 []).cluster "InfrastructureReady"
        = some (mirrorCondition obj "InfrastructureReady") ∧
      (infraRefStep env cl2 []).deletes = [DeleteCall.provider obj] ∧
      (infraRefStep env cl2 []).res
        = { requeue := false, requeueAfter := 0 } ∧
      (infraRefStep env cl2 []).cluster.meta.finalizers
        = cluster.meta.finalizers ∧
      (env.deleteProvider obj = none →
        (infraRefStep env cl2 []).err = none) ∧
      (∀ m, env.deleteProvider obj = some m →
        (infraRefStep env cl2 []).err.isSome = true)) := by
  have hr2 : cl2.spec.infrastructureRef = some r := by rw [hspec, hr]
  refine ⟨?_, ?_, ?_⟩
  · intro hget
    have heq : infraRefStep env cl2 []
        = finalizeDeletion
            (markFalse cl2 "InfrastructureReady" "Deleted") [] := by
      rw [infraRefStep, hr2]
      simp only [hget]
    rw [heq]
    constructor
    · rw [finalizeDeletion]
      rw [getCondition_removeFinalizer, markFalse, getCondition_setCondition]
      simp [deletedCondition]
    · rw [finalizeDeletion]
      simp only [removeFinalizer, markFalse, setCondition]
      rw [hmeta]
  · intro msg hget
    have heq : infraRefStep env cl2 []
        = { cluster := cl2, res := {},
            err := some ("failed to get " ++ r.kind ++ " " ++ r.name
              ++ ": " ++ msg),
            deletes := [] } := by
      rw [infraRefStep, hr2]
      simp only [hget]
    rw [heq]
    exact ⟨rfl, by rw [hmeta], rfl⟩
  · intro obj hget
    cases hdel : env.deleteProvider obj with
    | none =>
      have heq : infraRefStep env cl2 []
          = { cluster := setMirror cl2 "InfrastructureReady" obj,
              res := {}, err := none,
              deletes := [DeleteCall.provider obj] } := by
        rw [infraRefStep, hr2]
        simp only [hget, hdel, List.nil_append]
      rw [heq]
      refine ⟨?_, rfl, rfl, ?_, fun _ => rfl, ?_⟩
      · rw [setMirror, getCondition_setCondition, mirrorCondition_ctype]
        simp
      · simp only [setMirror, setCondition]
        rw [hmeta]
      · intro m hm
        exact absurd hm (by simp)
    | some msg =>
      have heq : infraRefStep env cl2 []
          = { cluster := setMirror cl2 "InfrastructureReady" obj,
              res := {},
              err := some ("failed to delete " ++ obj.kind ++ " "
                ++ obj.name ++ ": " ++ msg),
              deletes := [DeleteCall.provider obj] } := by
        rw [infraRefStep, hr2]
        simp only [hget, hdel, List.nil_append]
      rw [heq]
      refine ⟨?_, rfl, rfl, ?_, ?_, fun _ _ => rfl⟩
      · rw [setMirror, getCondition_setCondition, mirrorCondition_ctype]
        simp
      · simp only [setMirror, setCondition]
        rw [hmeta]
      · intro hnone
        exact absurd hnone (by simp)

theorem reconcileDelete_drained_eq (env : DeleteEnv) (cluster : Cluster)
    (hl : env.listErr = none)
    (hd : listDescendants env cluster = {}) :
    reconcileDelete env cluster = controlPlaneRefStep env cluster [] := by
  have hempty :
      filterOwnedDescendants env.machinePoolEnabled {} cluster = [] := by
    simp [filterOwnedDescendants, descendantLists]
  simp [reconcileDelete, hl, hd, hempty, clusterDescendants.length]

/-- C6: on a deletion pass with all descendants drained, the external
reference teardown follows a three-way branch per reference.  For a set
ControlPlaneRef: NotFound marks ControlPlaneReady False/Deleted and the
pass proceeds into the InfrastructureRef step; any other Get error is
returned with nothing mutated and no delete issued; a resolved object has
its readiness mirrored (fallback False/Deleting) onto ControlPlaneReady,
one delete is issued on it and the pass returns an empty result without
removing the finalizer, returning the delete error if the delete fails.
The InfrastructureRef behaves symmetrically once the control-plane
reference is absent. -/
theorem C6_externalRef_teardown (env : DeleteEnv) (cluster : Cluster)
    (hl : env.listErr = none)
    (hd : listDescendants env cluster = {}) :
    (∀ r, cluster.spec.controlPlaneRef = some r →
      (env.providerGet r = .notFound →
        reconcileDelete env cluster
          = infraRefStep env
              (markFalse cluster "ControlPlaneReady" "Deleted") [] ∧
        getCondition (reconcileDelete env cluster).cluster
            "ControlPlaneReady"
          = some (deletedCondition "ControlPlaneReady")) ∧
      (∀ msg, env.providerGet r = .failure msg →
        (reconcileDelete env cluster).err.isSome = true ∧
        (reconcileDelete env cluster).cluster = cluster ∧
        (reconcileDelete env cluster).deletes = []) ∧
      (∀ obj, env.providerGet r = .found obj →
        getCondition (reconcileDelete env cluster).cluster
            "ControlPlaneReady"
          = some (mirrorCondition obj "ControlPlaneReady") ∧
        (reconcileDelete env cluster).deletes = [DeleteCall.provider obj] ∧
        (reconcileDelete env cluster).res
          = { requeue := false, requeueAfter := 0 } ∧
        (reconcileDelete env cluster).cluster.meta.finalizers
          = cluster.meta.finalizers ∧
        (env.deleteProvider obj = none →
          (reconcileDelete env cluster).err = none) ∧
        (∀ m, env.deleteProvider obj = some m →
          (reconcileDelete env cluster).err.isSome = true))) ∧
    (∀ r, cluster.spec.infrastructureRef = some r →
      refAbsent env cluster.spec.controlPlaneRef = true →
      (env.providerGet r = .notFound →
        getCondition (reconcileDelete env cluster).cluster
            "InfrastructureReady"
          = some (deletedCondition "InfrastructureReady") ∧
        (reconcileDelete env cluster).cluster.meta.finalizers
          = cluster.meta.finalizers.filter (fun f => f ≠ clusterFinalizer)) ∧
      (∀ msg, env.providerGet r = .failure msg →
        (reconcileDelete env cluster).err.isSome = true ∧
        (reconcileDelete env cluster).cluster.meta.finalizers
          = cluster.meta.finalizers ∧
        (reconcileDelete env cluster).deletes = []) ∧
      (∀ obj, env.providerGet r = .found obj →
        getCondition (reconcileDelete env cluster).cluster
            "InfrastructureReady"
          = some (mirrorCondition obj "InfrastructureReady") ∧
        (reconcileDelete env cluster).deletes = [DeleteCall.provider obj] ∧
        (reconcileDelete env cluster).res
          = { requeue := false, requeueAfter := 0 } ∧
        (reconcileDelete env cluster).cluster.meta.finalizers
          = cluster.meta.finalizers ∧
        (env.deleteProvider obj = none →
          (reconcileDelete env cluster).err = none) ∧
        (∀ m, env.deleteProvider obj = some m →
          (reconcileDelete env cluster).err.isSome = true))) := by
  have hre := reconcileDelete_drained_eq env cluster hl hd
  constructor
  · intro r hr
    refine ⟨?_, ?_, ?_⟩
    · intro hget
      have heq : reconcileDelete env cluster
          = infraRefStep env
              (markFalse cluster "ControlPlaneReady" "Deleted") [] := by
        rw [hre, controlPlaneRefStep, hr]
        simp only [hget]
      refine ⟨heq, ?_⟩
      rw [heq]
      rw [getCondition_infraRefStep_other _ _ _ _ (by decide)]
      rw [markFalse, getCondition_setCondition]
      simp [deletedCondition]
    · intro msg hget
      have heq : reconcileDelete env cluster
          = { cluster := cluster, res := {},
              err := some ("failed to get " ++ r.kind ++ " " ++ r.name
                ++ ": " ++ msg),
              deletes := [] } := by
        rw [hre, controlPlaneRefStep, hr]
        simp only [hget]
      rw [heq]
      exact ⟨rfl, rfl, rfl⟩
    · intro obj hget
      cases hdel : env.deleteProvider obj with
      | none =>
        have heq : reconcileDelete env cluster
            = { cluster := setMirror cluster "ControlPlaneReady" obj,
                res := {}, err := none,
                deletes := [DeleteCall.provider obj] } := by
          rw [hre, controlPlaneRefStep, hr]
          simp only [hget, hdel, List.nil_append]
        rw [heq]
        refine ⟨?_, rfl, rfl, rfl, fun _ => rfl, ?_⟩
        · rw [setMirror, getCondition_setCondition, mirrorCondition_ctype]
          simp
        · intro m hm
          exact absurd hm (by simp)
      | some msg =>
        have heq : reconcileDelete env cluster
            = { cluster := setMirror cluster "ControlPlaneReady" obj,
                res := {},
                err := some ("failed to delete " ++ obj.kind ++ " "
                  ++ obj.name ++ ": " ++ msg),
                deletes := [DeleteCall.provider obj] } := by
          rw [hre, controlPlaneRefStep, hr]
          simp only [hget, hdel, List.nil_append]
        rw [heq]
        refine ⟨?_, rfl, rfl, rfl, ?_, fun _ _ => rfl⟩
        · rw [setMirror, getCondition_setCondition, mirrorCondition_ctype]
          simp
        · intro hnone
          exact absurd hnone (by simp)
  · intro r hr habs
    have hstage : reconcileDelete env cluster
        = infraRefStep env cluster []
        ∨ ∃ rcp, cluster.spec.controlPlaneRef = some rcp ∧
            env.providerGet rcp = .notFound ∧
            reconcileDelete env cluster
              = infraRefStep env
                  (markFalse cluster "ControlPlaneReady" "Deleted") [] := by
      cases hcp : cluster.spec.controlPlaneRef with
      | none =>
        left
        rw [hre, controlPlaneRefStep, hcp]
      | some rcp =>
        right
        rw [hcp] at habs
        simp only [refAbsent] at habs
        refine ⟨rcp, rfl, ?_, ?_⟩
        · cases hget : env.providerGet rcp with
          | notFound => rfl
          | failure msg => rw [hget] at habs; simp at habs
          | found obj => rw [hget] at habs; simp at habs
        · rw [hre, controlPlaneRefStep, hcp]
          cases hget : env.providerGet rcp with
          | notFound => simp only [hget]
          | failure msg => rw [hget] at habs; simp at habs
          | found obj => rw [hget] at habs; simp at habs
    rcases hstage with heq0 | ⟨rcp, hcp, hget0, heq0⟩
    · rw [heq0]
      exact infraStep_threeway env cluster cluster rfl rfl r hr
    · rw [heq0]
      exact infraStep_threeway env cluster
        (markFalse cluster "ControlPlaneReady" "Deleted") rfl rfl r hr

theorem C6_externalRef_teardown_witness :
    getCondition (reconcileDelete envC6w clusterC6w).cluster
        "InfrastructureReady"
      = some (mirrorCondition objC6 "InfrastructureReady") ∧
    (reconcileDelete envC6w clusterC6w).deletes
      = [DeleteCall.provider objC6] ∧
    (reconcileDelete envC6w clusterC6w).err = none := by
  have h := ((C6_externalRef_teardown envC6w clusterC6w rfl (by decide)).2
    rinfC6 rfl (by decide)).2.2 objC6 (by decide)
  exact ⟨h.1, h.2.1, h.2.2.2.2.1 rfl⟩

theorem runPhases_frozen (steps : List Step) (c : Cluster)
    (res : CtrlResult) (errs : List String) (h : errs.isEmpty = false) :
    runPhases steps c res errs
      = (finalCluster steps c, res, errs ++ allStepErrors steps c) := by
  induction steps generalizing c errs with
  | nil => simp [runPhases, finalCluster, allStepErrors, stepOutputs]
  | cons s rest ih =>
    rw [runPhases]
    cases hout : (s c).2.2 with
    | some m =>
      simp only [hout]
      rw [if_neg (by simp)]
      rw [ih _ _ (by simp)]
      simp [finalCluster, allStepErrors, stepOutputs, hout]
    | none =>
      simp only [hout]
      rw [if_neg (by simp [h])]
      rw [ih _ _ h]
      simp [finalCluster, allStepErrors, stepOutputs, hout]

theorem runPhases_clean (steps : List Step) (c : Cluster)
    (res : CtrlResult) :
    runPhases steps c res []
      = (finalCluster steps c,
          (preErrorResults steps c).foldl lowestNonZeroResult res,
          allStepErrors steps c) := by
  induction steps generalizing c res with
  | nil =>
    simp [runPhases, finalCluster, preErrorResults, stepOutputs,
      allStepErrors]
  | cons s rest ih =>
    rw [runPhases]
    cases hout : (s c).2.2 with
    | none =>
      simp only [hout]
      have hemp : (([] : List String).isEmpty = true) := rfl
      rw [if_pos hemp]
      rw [ih]
      simp [preErrorResults, stepOutputs, allStepErrors, finalCluster, hout]
    | some m =>
      simp only [hout]
      rw [if_neg (by simp)]
      rw [runPhases_frozen _ _ _ _ (by simp)]
      simp [preErrorResults, stepOutputs, allStepErrors, finalCluster, hout]

theorem lnz_requeue_false (a : Nat) (r : CtrlResult)
    (hr : r.requeue = false) :
    lowestNonZeroResult { requeue := false, requeueAfter := a } r
      = { requeue := false, requeueAfter := minNZ a r.requeueAfter } := by
  rcases r with ⟨rq, ra⟩
  simp only at hr
  subst hr
  by_cases ha : a = 0
  · subst ha
    simp [lowestNonZeroResult, isZeroResult, minNZ]
  · by_cases hra : ra = 0
    · subst hra
      simp [lowestNonZeroResult, isZeroResult, minNZ, ha]
    · simp only [lowestNonZeroResult, isZeroResult, minNZ]
      rw [if_neg (by simp [ha]), if_neg (by simp [hra]), if_neg (by simp),
        if_neg (by simp), if_neg ha, if_neg hra]
      by_cases hlt : a < ra
      · rw [if_pos hlt]
        simp [Nat.min_def, Nat.le_of_lt hlt]
      · rw [if_neg hlt]
        have : min a ra = ra := by omega
        simp [this]

theorem foldl_lnz_requeue_false (l : List CtrlResult) (a : Nat)
    (h : ∀ r ∈ l, r.requeue = false) :
    l.foldl lowestNonZeroResult { requeue := false, requeueAfter := a }
      = { requeue := false,
          requeueAfter := (l.map CtrlResult.requeueAfter).foldl minNZ a } := by
  induction l generalizing a with
  | nil => rfl
  | cons r t ih =>
    rw [List.foldl_cons, List.map_cons, List.foldl_cons]
    rw [lnz_requeue_false a r (h r (by simp))]
    exact ih _ (fun x hx => h x (by simp [hx]))

/-- C5: one normal-path pass runs all four phase steps exactly once, in
order, regardless of earlier failures (the final cluster is the in-order
fold of every step); the returned error list collects every step error in
order; the merged requeue result folds only the results of steps that ran
before the first error; and when no step sets the bare requeue flag the
merged requeue-after equals the lowest non-zero requeue-after of those
pre-error steps. -/
theorem C5_phase_loop (env : ReconcileEnv) (cluster : Cluster) :
    reconcile env cluster
      = (finalCluster (reconcilePhases env) cluster,
          (preErrorResults (reconcilePhases env) cluster).foldl
            lowestNonZeroResult { requeue := false, requeueAfter := 0 },
          allStepErrors (reconcilePhases env) cluster) ∧
    ((∀ out ∈ stepOutputs (reconcilePhases env) cluster,
        out.2.1.requeue = false) →
      (reconcile env cluster).2.1.requeueAfter
        = minNonZero ((preErrorResults (reconcilePhases env) cluster).map
            CtrlResult.requeueAfter) ∧
      (reconcile env cluster).2.1.requeue = false) := by
  have h1 : reconcile env cluster
      = (finalCluster (reconcilePhases env) cluster,
          (preErrorResults (reconcilePhases env) cluster).foldl
            lowestNonZeroResult { requeue := false, requeueAfter := 0 },
          allStepErrors (reconcilePhases env) cluster) := by
    rw [reconcile]
    exact runPhases_clean _ _ _
  refine ⟨h1, ?_⟩
  intro hall
  have hpre : ∀ r ∈ preErrorResults (reconcilePhases env) cluster,
      r.requeue = false := by
    intro r hr
    rcases List.mem_map.1 hr with ⟨out, hout, rfl⟩
    exact hall out
      ((List.takeWhile_sublist _).subset hout)
  rw [h1]
  simp only []
  rw [foldl_lnz_requeue_false _ _ hpre]
  exact ⟨rfl, rfl⟩

theorem C5_phase_loop_witness :
    (reconcile envC5w clusterC5w).2.1.requeueAfter = 10 ∧
    (reconcile envC5w clusterC5w).2.2 = ["kubeconfig missing"] := by
  refine ⟨((C5_phase_loop envC5w clusterC5w).2 (by decide)).1.trans
    (by decide), ?_⟩
  have h1 := (C5_phase_loop envC5w clusterC5w).1
  rw [h1]
  decide

/-- C7: the control-plane-initialized step is a one-way latch — skipped
entirely (cluster unchanged) when a ControlPlaneRef is set; returns
immediately once the flag is already true; never resets the flag to
false; and under no provider reference with the flag still false it sets
the flag to true exactly when some active control-plane Machine reports a
node reference. -/
theorem C7_controlPlaneInitialized_latch
    (ml : Except String (List Machine)) (cluster : Cluster) :
    (∀ r, cluster.spec.controlPlaneRef = some r →
      reconcileControlPlaneInitialized ml cluster
        = (cluster, { requeue := false, requeueAfter := 0 }, none)) ∧
    (cluster.status.controlPlaneInitialized = true →
      reconcileControlPlaneInitialized ml cluster
        = (cluster, { requeue := false, requeueAfter := 0 }, none)) ∧
    (cluster.status.controlPlaneInitialized = true →
      (reconcileControlPlaneInitialized ml
          cluster).1.status.controlPlaneInitialized = true) ∧
    (∀ ms, cluster.spec.controlPlaneRef = none →
      cluster.status.controlPlaneInitialized = false →
      ml = .ok ms →
      ((reconcileControlPlaneInitialized ml
            cluster).1.status.controlPlaneInitialized = true
        ↔ ∃ m ∈ ms, m.meta.deletionTimestamp = 0 ∧
            isControlPlaneMachine m = true ∧ m.nodeRef.isSome = true)) := by
  have h2 : cluster.status.controlPlaneInitialized = true →
      reconcileControlPlaneInitialized ml cluster
        = (cluster, { requeue := false, requeueAfter := 0 }, none) := by
    intro h
    by_cases hcp : cluster.spec.controlPlaneRef = none <;>
      simp [reconcileControlPlaneInitialized, hcp, h]
  refine ⟨?_, h2, ?_, ?_⟩
  · intro r hr
    simp [reconcileControlPlaneInitialized, hr]
  · intro h
    rw [h2 h]
    exact h
  · intro ms hcp hinit hml
    subst hml
    have hred : reconcileControlPlaneInitialized (Except.ok ms) cluster
        = if (getActiveMachines ms).any
              (fun m => isControlPlaneMachine m && m.nodeRef.isSome) then
            ({ cluster with
                status :=
                  { cluster.status with controlPlaneInitialized := true } },
              { requeue := false, requeueAfter := 0 }, none)
          else (cluster, { requeue := false, requeueAfter := 0 }, none) := by
      simp [reconcileControlPlaneInitialized, hcp, hinit]
    rw [hred]
    by_cases hany : (getActiveMachines ms).any
        (fun m => isControlPlaneMachine m && m.nodeRef.isSome) = true
    · rw [if_pos hany]
      simp only [List.any_eq_true, getActiveMachines, List.mem_filter,
        Bool.and_eq_true, decide_eq_true_eq] at hany
      constructor
      · intro _
        rcases hany with ⟨m, ⟨hm, hdt⟩, hcpm, hnode⟩
        exact ⟨m, hm, hdt, hcpm, hnode⟩
      · intro _
        rfl
    · rw [if_neg hany]
      simp only [List.any_eq_true, getActiveMachines, List.mem_filter,
        Bool.and_eq_true, decide_eq_true_eq] at hany
      constructor
      · intro hfalse
        exact absurd hfalse (by rw [hinit]; simp)
      · intro ⟨m, hm, hdt, hcpm, hnode⟩
        exact absurd ⟨m, ⟨hm, hdt⟩, hcpm, hnode⟩ hany

theorem C7_controlPlaneInitialized_latch_witness :
    (reconcileControlPlaneInitialized (Except.ok [mC7])
        clusterC7w).1.status.controlPlaneInitialized = true :=
  ((C7_controlPlaneInitialized_latch (Except.ok [mC7]) clusterC7w).2.2.2
    [mC7] rfl rfl rfl).mpr (by decide)

/-- C8: the watch mapper returns zero requests for a non-Machine object,
a non-control-plane Machine, a Machine without a node reference, a failed
owning-Cluster lookup (the failure is swallowed — the mapper is total and
returns a list, never an error) and an owning Cluster already
initialized; otherwise it returns exactly one request naming the owning
Cluster. -/
theorem C8_watch_mapper (env : MapperEnv) (o : MapObject) :
    (∀ s, o = .other s → controlPlaneMachineToCluster env o = []) ∧
    (∀ m, o = .machine m →
      (isControlPlaneMachine m = false →
        controlPlaneMachineToCluster env o = []) ∧
      (m.nodeRef = none → controlPlaneMachineToCluster env o = []) ∧
      (∀ e, env.getClusterByName m.meta.nspace m.clusterName = .error e →
        controlPlaneMachineToCluster env o = []) ∧
      (∀ cl, env.getClusterByName m.meta.nspace m.clusterName = .ok cl →
        cl.status.controlPlaneInitialized = true →
        controlPlaneMachineToCluster env o = []) ∧
      (∀ cl, isControlPlaneMachine m = true → m.nodeRef.isSome = true →
        env.getClusterByName m.meta.nspace m.clusterName = .ok cl →
        cl.status.controlPlaneInitialized = false →
        controlPlaneMachineToCluster env o
          = [{ nspace := cl.meta.nspace, name := cl.meta.name }])) := by
  constructor
  · intro s hs
    subst hs
    rfl
  · intro m hm
    subst hm
    refine ⟨?_, ?_, ?_, ?_, ?_⟩
    · intro hcp
      simp [controlPlaneMachineToCluster, hcp]
    · intro hnode
      by_cases hcp : isControlPlaneMachine m = true
      · simp [controlPlaneMachineToCluster, hcp, hnode]
      · simp [controlPlaneMachineToCluster, hcp]
    · intro e he
      by_cases hcp : isControlPlaneMachine m = true
      · by_cases hnode : m.nodeRef = none
        · simp [controlPlaneMachineToCluster, hcp, hnode]
        · simp [controlPlaneMachineToCluster, hcp, hnode, he]
      · simp [controlPlaneMachineToCluster, hcp]
    · intro cl hcl hinit
      by_cases hcp : isControlPlaneMachine m = true
      · by_cases hnode : m.nodeRef = none
        · simp [controlPlaneMachineToCluster, hcp, hnode]
        · simp [controlPlaneMachineToCluster, hcp, hnode, hcl, hinit]
      · simp [controlPlaneMachineToCluster, hcp]
    · intro cl hcp hnode hcl hinit
      have hn : ¬ m.nodeRef = none := by
        cases hval : m.nodeRef with
        | none => rw [hval] at hnode; simp at hnode
        | some v => simp
      simp [controlPlaneMachineToCluster, hcp, hn, hcl, hinit]

theorem C8_watch_mapper_witness :
    controlPlaneMachineToCluster envC8w (MapObject.machine mC8)
      = [{ nspace := "ns8", name := "c8" }] :=
  ((C8_watch_mapper envC8w (MapObject.machine mC8)).2 mC8 rfl).2.2.2.2
    clusterC8 (by decide) (by decide) (by rfl) (by decide)

theorem Reconcile_eq_of_ok (env : ReconcileEnv) (cluster : Cluster)
    (hok : env.getCluster = ClusterGetResult.ok cluster)
    (hp : isPaused cluster = false)
    (hh : env.newHelperErr = none) :
    Reconcile env =
      { cluster := some (patchCluster
            (reconcilePhase (reconcileBody env cluster).cluster)
            (if (reconcileBody env cluster).err = none
              then [PatchOpt.withObservedGeneration] else [])).1,
        res := (reconcileBody env cluster).res,
        err := (match env.patchErr with
          | some pe => some (joinErrs
              ((match (reconcileBody env cluster).err with
                | some e => [e] | none => []) ++ [pe]))
          | none => (reconcileBody env cluster).err),
        deletes := (reconcileBody env cluster).deletes,
        patch := some (patchCluster
            (reconcilePhase (reconcileBody env cluster).cluster)
            (if (reconcileBody env cluster).err = none
              then [PatchOpt.withObservedGeneration] else [])).2,
        bodyErr := (reconcileBody env cluster).err,
        bodyCluster := some (reconcileBody env cluster).cluster } := by
  rw [Reconcile, hok]
  simp only [hp, Bool.false_eq_true, if_false, hh]

/-- C3 (amended): for a fetched, unpaused Cluster with a non-zero
deletion timestamp that already carries the Cluster finalizer, the pass
body is exactly the deletion path — its cluster mutation, result, error
and delete calls are those of reconcileDelete — and the final in-memory
object never gains a finalizer the input did not have.  (Unamended, the
claim fails: when the finalizer is absent, Reconcile adds it even to a
deleting Cluster — see the counterexample.) -/
theorem C3_deleting_cluster_dispatch (env : ReconcileEnv)
    (cluster : Cluster)
    (hok : env.getCluster = ClusterGetResult.ok cluster)
    (hp : isPaused cluster = false)
    (hh : env.newHelperErr = none)
    (hdt : cluster.meta.deletionTimestamp ≠ 0)
    (hfin : containsFinalizer cluster clusterFinalizer = true) :
    (Reconcile env).bodyCluster
        = some (reconcileDelete env.deleteEnv cluster).cluster ∧
    (Reconcile env).res = (reconcileDelete env.deleteEnv cluster).res ∧
    (Reconcile env).bodyErr = (reconcileDelete env.deleteEnv cluster).err ∧
    (Reconcile env).deletes
        = (reconcileDelete env.deleteEnv cluster).deletes ∧
    (∀ f, f ∈ finalFinalizers (Reconcile env) →
      f ∈ cluster.meta.finalizers) := by
  have hbody : reconcileBody env cluster
      = { cluster := (reconcileDelete env.deleteEnv cluster).cluster,
          res := (reconcileDelete env.deleteEnv cluster).res,
          err := (reconcileDelete env.deleteEnv cluster).err,
          deletes := (reconcileDelete env.deleteEnv cluster).deletes } := by
    rw [reconcileBody, if_neg (by rw [hfin]; simp), if_pos hdt]
  rw [Reconcile_eq_of_ok env cluster hok hp hh, hbody]
  refine ⟨rfl, rfl, rfl, rfl, ?_⟩
  intro f hf
  simp only [finalFinalizers] at hf
  have hmeta : (patchCluster
      (reconcilePhase (reconcileDelete env.deleteEnv cluster).cluster)
      (if (reconcileDelete env.deleteEnv cluster).err = none
        then [PatchOpt.withObservedGeneration] else [])).1.meta
      = (reconcileDelete env.deleteEnv cluster).cluster.meta := rfl
  rw [hmeta] at hf
  rcases reconcileDelete_finalizers_cases env.deleteEnv cluster with h | ⟨h, _⟩
  · rw [h] at hf; exact hf
  · rw [h] at hf; exact (List.mem_filter.1 hf).1

theorem C3_counterexample_finalizer_added_while_deleting :
    clusterC3x.meta.deletionTimestamp ≠ 0 ∧
    clusterFinalizer ∉ clusterC3x.meta.finalizers ∧
    clusterFinalizer ∈ finalFinalizers (Reconcile envC3x) := by
  decide

theorem C3_deleting_cluster_dispatch_witness :
    (Reconcile envC3w).deletes = [] ∧
    (Reconcile envC3w).res = { requeue := false, requeueAfter := 0 } := by
  have h := C3_deleting_cluster_dispatch envC3w clusterC3w rfl rfl rfl
    (by decide) (by decide)
  exact ⟨h.2.2.2.1.trans (by decide), h.2.1.trans (by decide)⟩

/-- C9: on every pass that reaches the deferred block (object fetched,
not paused, patch helper built), a status patch is attempted; its option
list contains the observed-generation option exactly when the body of the
pass completed without error, and always declares the three owned
condition types (Ready, ControlPlaneReady, InfrastructureReady); and the
patched object carries the freshly recomputed phase. -/
theorem C9_deferred_status_patch (env : ReconcileEnv) (cluster : Cluster)
    (hok : env.getCluster = ClusterGetResult.ok cluster)
    (hp : isPaused cluster = false)
    (hh : env.newHelperErr = none) :
    (Reconcile env).patch.isSome = true ∧
    (∀ opts, (Reconcile env).patch = some opts →
      (PatchOpt.withObservedGeneration ∈ opts ↔
        (Reconcile env).bodyErr = none) ∧
      PatchOpt.withOwnedConditions
          ["Ready", "ControlPlaneReady", "InfrastructureReady"] ∈ opts) ∧
    (∀ c, (Reconcile env).cluster = some c →
      c.status.phase
        = computePhase (reconcileBody env cluster).cluster) := by
  rw [Reconcile_eq_of_ok env cluster hok hp hh]
  refine ⟨rfl, ?_, ?_⟩
  · intro opts hopts
    have hx := Option.some.inj hopts
    subst hx
    constructor
    · constructor
      · intro hin
        by_cases herr : (reconcileBody env cluster).err = none
        · exact herr
        · exfalso
          rw [patchCluster] at hin
          simp only [if_neg herr, List.nil_append] at hin
          simp at hin
      · intro herr
        have h0 : (reconcileBody env cluster).err = none := herr
        simp [patchCluster, h0]
    · simp [patchCluster]
  · intro c hc
    have hx := Option.some.inj hc
    rw [← hx]
    rfl

theorem C9_deferred_status_patch_witness :
    (Reconcile envC9w).patch.isSome = true ∧
    (PatchOpt.withObservedGeneration
        ∈ [PatchOpt.withObservedGeneration,
            PatchOpt.withOwnedConditions
              ["Ready", "ControlPlaneReady", "InfrastructureReady"]]
      ↔ (Reconcile envC9w).bodyErr = none) := by
  have h := C9_deferred_status_patch envC9w clusterC9w rfl rfl rfl
  exact ⟨h.1, (h.2.1 _ (by decide)).1⟩

end CAPI
